import Mathlib

/-!
Shallow embedding of the team-membership service
(`src/apps/auth/src/modules/team/team.service.ts`) of the repository
`Apries406/exec`, together with theorems settling the specification
claims about it.

The persistence layer is modelled as an explicit database state
(`DBState`) holding the `Team` and `User` rows; every service method is
a pure function `DBState → DBState × Except RpcError α`, returning the
database state after the call next to the returned value or raised
error.  TypeORM repository primitives (`findOne`, `find`, `save`,
`remove`, `manager.transaction`) become explicit state-passing
functions.  Persistence failures inside the creation transaction are
modelled by a fault-injection parameter (`Faults`): each save step of
the mutation phase may be made to raise a given error message, which the
service's `catch` block then classifies.
-/

/-- Modelled from the spec: role enumeration of
`src/apps/auth/src/modules/user/entities/user.entity.ts`, which is not
under `src/` (only the service importing `User, UserRole` is).  Spec §3:
"role (enumerated: at minimum `EXTERNAL_SUPER_ADMIN`, `EXTERNAL_MEMBER`,
plus other non-team roles out of scope)"; the out-of-scope roles are
represented by an opaque index. -/
inductive UserRole where
  | EXTERNAL_SUPER_ADMIN
  | EXTERNAL_MEMBER
  | otherRole (k : Nat)
deriving DecidableEq, Repr

/-- Modelled from the spec: the `Team` entity
(`team.entity.ts` is not under `src/`).  Spec §3: identity (opaque
unique id, here `Nat` assigned by the store on first save), name,
optional description.  Members are not stored on the row: spec §3 "a
team's member set is exactly the set of Users whose team reference
equals this team's id" (the `members` relation resolved by the store). -/
structure Team where
  id : Nat
  name : String
  description : Option String
deriving DecidableEq, Repr

/-- Modelled from the spec: the `User` entity
(`user.entity.ts` is not under `src/`).  Spec §3: identity (opaque
unique id; the service looks users up by the string ids of the DTO),
role, nullable team reference. -/
structure User where
  id : String
  role : UserRole
  team : Option Nat
deriving DecidableEq, Repr

/-- The database state behind the two repositories: the `Team` rows, the
`User` rows, and the id the store will assign to the next inserted team
(spec §6: `saveTeam` "assigns id on first save"). -/
structure DBState where
  teams : List Team
  users : List User
  nextTeamId : Nat
deriving DecidableEq, Repr

/-- The boundary error envelope `(code, humanMessage)` carried by the
`RpcException`s the service throws (spec §6). -/
structure RpcError where
  code : String
  message : String
deriving DecidableEq, Repr

/-- Modelled from the spec: `createGRPCErrorResponse` from
`src/apps/auth/src/libs/response.lib.ts`, which is not under `src/`.
Spec §6: "every failure is reported as a structured pair
`(code, humanMessage)`". -/
def createGRPCErrorResponse (code msg : String) : RpcError :=
  ⟨code, msg⟩

/-- Modelled from the spec: `CreateTeamDTO`
(`dto/create-team.dto.ts` is not under `src/`); fields are the ones the
service reads: `name`, `description`, `super_admin_user_id`,
`members`. -/
structure CreateTeamDTO where
  name : String
  description : Option String
  super_admin_user_id : String
  members : List String
deriving DecidableEq, Repr

/-- Modelled from the spec: `UpdateTeamDTO`
(`dto/update-team.dto.ts` is not under `src/`); fields are the ones the
service reads: `id`, optional `name`, optional `description`. -/
structure UpdateTeamDTO where
  id : Nat
  name : Option String
  description : Option String
deriving DecidableEq, Repr

/-- `teamRepository.findOne({ where: { name } })`: first team row whose
name equals `n` exactly. -/
def findTeamByName (n : String) (s : DBState) : Option Team :=
  s.teams.find? (fun t => t.name = n)

/-- `userRepository.findOne({ where: { id } })`. -/
def findUserById (i : String) (s : DBState) : Option User :=
  s.users.find? (fun u => u.id = i)

/-- `userRepository.find({ where: { id: In(ids) } })`: every user row
whose id occurs in `ids` (one row per matching stored user, in store
order). -/
def findUsersByIds (ids : List String) (s : DBState) : List User :=
  s.users.filter (fun u => u.id ∈ ids)

/-- `userRepository.save(user)`: replace the row with the same id. -/
def saveUser (u : User) (s : DBState) : DBState :=
  { s with users := s.users.map (fun v => if v.id = u.id then u else v) }

/-- `userRepository.save(users)`: batch save, one row after the other in
list order. -/
def saveUsers (us : List User) (s : DBState) : DBState :=
  us.foldl (fun st u => saveUser u st) s

/-- The resolved `members` relation of a team: the users whose team
reference equals the team's id. -/
def teamMembers (tid : Nat) (s : DBState) : List User :=
  s.users.filter (fun u => u.team = some tid)

/-- `teamRepository.findOne({ where: { id }, relations: ['members'] })`:
the team row together with its resolved member list. -/
def findTeamWithMembers (i : Nat) (s : DBState) : Option (Team × List User) :=
  (s.teams.find? (fun t => t.id = i)).map (fun t => (t, teamMembers t.id s))

/-- `teamRepository.remove(team)`: delete the row with the team's id. -/
def removeTeam (t : Team) (s : DBState) : DBState :=
  { s with teams := s.teams.filter (fun x => x.id ≠ t.id) }

/-- The value built at the end of the transaction callback in
`createTeam`: `{ success: true, message: '团队创建成功', data: teamWithMembers }`. -/
structure CreateTeamResult where
  success : Bool
  message : String
  data : Option (Team × List User)
deriving DecidableEq, Repr

/-- Fault injection for the persistence steps inside `createTeam`'s
transaction: each field, when `some m`, makes the corresponding save
step raise a persistence error whose message is `m`. -/
structure Faults where
  saveTeamFault : Option String
  saveAdminFault : Option String
  saveMembersFault : Option String
deriving DecidableEq, Repr

/-- The fault assignment under which every persistence step succeeds. -/
def noFaults : Faults := ⟨none, none, none⟩

/-- `userRepository.manager.transaction(work)`: the external persistence
gateway's transaction primitive (TypeORM, not repository code), per its
contract in spec §6: "`runInTransaction(work: () => R) → R`, rolling
back all writes performed by `work` if it raises" — on an error the
initial state is restored, otherwise the callback's final state and
value are kept. -/
def runInTransaction (s : DBState) (work : DBState → DBState × Except String α) :
    DBState × Except String α :=
  match work s with
  | (s', Except.ok a) => (s', Except.ok a)
  | (_, Except.error m) => (s, Except.error m)

/-- The transaction callback of `TeamService.createTeam`
(`team.service.ts` lines 58–93), acting on the `superAdmin` and
`members` rows fetched during validation: create and save the team row,
save the admin with role `EXTERNAL_SUPER_ADMIN` and the new team, batch
save every fetched member with role `EXTERNAL_MEMBER` and the new team
(no admin exclusion appears in the loop), then re-read the team with its
`members` relation and build the success value. -/
def createTeamTx (f : Faults) (dto : CreateTeamDTO) (superAdmin : User)
    (members : List User) (s : DBState) : DBState × Except String CreateTeamResult :=
  match f.saveTeamFault with
  | some m => (s, Except.error m)
  | none =>
    let savedTeam : Team := { id := s.nextTeamId, name := dto.name, description := dto.description }
    let s1 : DBState := { s with teams := s.teams ++ [savedTeam], nextTeamId := s.nextTeamId + 1 }
    match f.saveAdminFault with
    | some m => (s1, Except.error m)
    | none =>
      let s2 := saveUser { superAdmin with role := UserRole.EXTERNAL_SUPER_ADMIN,
                                           team := some savedTeam.id } s1
      match (if members.length > 0 then f.saveMembersFault else none) with
      | some m => (s2, Except.error m)
      | none =>
        let s3 := saveUsers (members.map (fun u =>
          { u with team := some savedTeam.id, role := UserRole.EXTERNAL_MEMBER })) s2
        (s3, Except.ok { success := true, message := "团队创建成功",
                         data := findTeamWithMembers savedTeam.id s3 })

/-- `TeamService.createTeam` (`team.service.ts` lines 21–102) with fault
injection for the saves of the mutation phase.  Validation: name
uniqueness (`TEAM_ALREADY_EXISTS`), admin existence (`USER_NOT_FOUND`),
then — only when `dto.members` is non-empty — the fetched member count
against the requested count (`USER_NOT_FOUND`).  Mutation: the
transaction callback above; its result value is discarded by the
`await` statement, so the method resolves with no payload (`Unit`); a
transaction error is wrapped as `CREATE_TEAM_FAILURE` carrying
`(error as Error).message || '创建团队失败'`. -/
def createTeamWith (f : Faults) (dto : CreateTeamDTO) (s : DBState) :
    DBState × Except RpcError Unit :=
  match findTeamByName dto.name s with
  | some _ =>
      (s, Except.error (createGRPCErrorResponse "TEAM_ALREADY_EXISTS"
        ("团队名称「 " ++ dto.name ++ " 」已存在")))
  | none =>
    match findUserById dto.super_admin_user_id s with
    | none => (s, Except.error (createGRPCErrorResponse "USER_NOT_FOUND" "用户不存在"))
    | some superAdmin =>
      let members : List User :=
        if dto.members.length > 0 then findUsersByIds dto.members s else []
      if dto.members.length > 0 ∧ members.length ≠ dto.members.length then
        (s, Except.error (createGRPCErrorResponse "USER_NOT_FOUND" "一个或多个团队成员不存在"))
      else
        match runInTransaction s (createTeamTx f dto superAdmin members) with
        | (s', Except.ok _) => (s', Except.ok ())
        | (s', Except.error m) =>
            (s', Except.error (createGRPCErrorResponse "CREATE_TEAM_FAILURE"
              (if m = "" then "创建团队失败" else m)))

/-- `TeamService.createTeam` with every persistence step succeeding. -/
def createTeam (dto : CreateTeamDTO) (s : DBState) : DBState × Except RpcError Unit :=
  createTeamWith noFaults dto s

/-- `TeamService.findAll`: every team with its resolved member list. -/
def findAll (s : DBState) : DBState × Except RpcError (List (Team × List User)) :=
  (s, Except.ok (s.teams.map (fun t => (t, teamMembers t.id s))))

/-- `TeamService.findOne` (`team.service.ts` lines 105–118): the team
with its resolved member list, or `TEAM_NOT_FOUND`. -/
def findOne (i : Nat) (s : DBState) : DBState × Except RpcError (Team × List User) :=
  match findTeamWithMembers i s with
  | none => (s, Except.error (createGRPCErrorResponse "TEAM_NOT_FOUND" "团队未找到"))
  | some tm => (s, Except.ok tm)

/-- `TeamService.updateTeam` (`team.service.ts` lines 126–150).  The
name-collision check is guarded by JS truthiness
(`if (dto.name && dto.name !== team.name)`), so it runs only when
`dto.name` is present, non-empty and different from the current name.
The closing assignments (`team.name = dto.name`,
`team.description = dto.description`) mutate only the fetched in-memory
aggregate; no `save` is called and nothing is returned, so the stored
state is never changed and the method resolves with no payload. -/
def updateTeam (dto : UpdateTeamDTO) (s : DBState) : DBState × Except RpcError Unit :=
  match s.teams.find? (fun t => t.id = dto.id) with
  | none => (s, Except.error (createGRPCErrorResponse "TEAM_NOT_FOUND" "团队未找到"))
  | some team =>
    match dto.name with
    | some n =>
      if n ≠ "" ∧ n ≠ team.name then
        match findTeamByName n s with
        | some _ => (s, Except.error (createGRPCErrorResponse "TEAM_NAME_EXISTS" "团队名已存在"))
        | none => (s, Except.ok ())
      else (s, Except.ok ())
    | none => (s, Except.ok ())

/-- `TeamService.deleteTeam` (`team.service.ts` lines 152–163): resolve
the team via `findOne` (raising its `TEAM_NOT_FOUND` if absent), save
each current member with its team reference cleared to `null`, one
after the other, then remove the team row. -/
def deleteTeam (i : Nat) (s : DBState) : DBState × Except RpcError Unit :=
  match findTeamWithMembers i s with
  | none => (s, Except.error (createGRPCErrorResponse "TEAM_NOT_FOUND" "团队未找到"))
  | some tm =>
    let s1 := tm.2.foldl (fun st m => saveUser { m with team := none } st) s
    (removeTeam tm.1 s1, Except.ok ())

/-- Well-formedness of a database state: distinct user ids, distinct
team ids, and the id counter is fresh (every stored team id, and every
team id referenced by a user, is below `nextTeamId`). -/
def WF (s : DBState) : Prop :=
  (s.users.map User.id).Nodup ∧ (s.teams.map Team.id).Nodup ∧
  (∀ t ∈ s.teams, t.id < s.nextTeamId) ∧
  (∀ u ∈ s.users, ∀ tid, u.team = some tid → tid < s.nextTeamId)

/-- The first fault of `f` that the mutation phase of `createTeamWith`
actually encounters, in execution order: the team save, then the admin
save, then — only when a member batch is saved at all — the member
save. -/
def effFault (f : Faults) (dto : CreateTeamDTO) : Option String :=
  match f.saveTeamFault with
  | some m => some m
  | none =>
    match f.saveAdminFault with
    | some m => some m
    | none => if dto.members.length > 0 then f.saveMembersFault else none

/-! ## Basic facts about the store operations -/

theorem members_ite_eq (dto : CreateTeamDTO) (s : DBState) :
    (if dto.members.length > 0 then findUsersByIds dto.members s else [])
      = findUsersByIds dto.members s := by
  split
  · rfl
  · rename_i h
    have hnil : dto.members = [] := List.length_eq_zero.mp (Nat.eq_zero_of_not_pos h)
    simp [findUsersByIds, hnil]

theorem saveUser_teams (u : User) (s : DBState) : (saveUser u s).teams = s.teams := rfl

theorem saveUser_nextTeamId (u : User) (s : DBState) :
    (saveUser u s).nextTeamId = s.nextTeamId := rfl

theorem saveUsers_teams (ws : List User) (s : DBState) : (saveUsers ws s).teams = s.teams := by
  induction ws generalizing s with
  | nil => rfl
  | cons w ws ih => exact (ih (saveUser w s)).trans (saveUser_teams w s)

theorem saveUsers_nextTeamId (ws : List User) (s : DBState) :
    (saveUsers ws s).nextTeamId = s.nextTeamId := by
  induction ws generalizing s with
  | nil => rfl
  | cons w ws ih => exact (ih (saveUser w s)).trans (saveUser_nextTeamId w s)

theorem id_map_saveUser (u : User) (s : DBState) :
    (saveUser u s).users.map User.id = s.users.map User.id := by
  simp only [saveUser, List.map_map]
  refine List.map_congr_left (fun v _ => ?_)
  by_cases h : v.id = u.id <;> simp [Function.comp, h]

theorem find?_id_unique {ws : List User} (hw : (ws.map User.id).Nodup) {w : User}
    (hmem : w ∈ ws) : ws.find? (fun x => x.id = w.id) = some w := by
  induction ws with
  | nil => cases hmem
  | cons a t ih =>
    rw [List.map_cons, List.nodup_cons] at hw
    obtain ⟨ha, ht⟩ := hw
    rcases List.mem_cons.mp hmem with rfl | hmem
    · exact List.find?_cons_of_pos _ (by simp)
    · have hne : ¬ a.id = w.id := fun hEq => ha (hEq ▸ List.mem_map_of_mem User.id hmem)
      rw [List.find?_cons_of_neg _ (by simpa using hne)]
      exact ih ht hmem

theorem eq_of_mem_of_id_eq {l : List User} (h : (l.map User.id).Nodup) {u v : User}
    (hu : u ∈ l) (hv : v ∈ l) (he : u.id = v.id) : u = v :=
  List.inj_on_of_nodup_map h hu hv he

theorem saveUsers_users (ws : List User) (hw : (ws.map User.id).Nodup) (s : DBState) :
    (saveUsers ws s).users
      = s.users.map (fun v => (ws.find? (fun w => w.id = v.id)).getD v) := by
  induction ws generalizing s with
  | nil => simp [saveUsers]
  | cons w ws ih =>
    rw [List.map_cons, List.nodup_cons] at hw
    obtain ⟨hw1, hw2⟩ := hw
    show (saveUsers ws (saveUser w s)).users = _
    rw [ih hw2]
    simp only [saveUser, List.map_map]
    refine List.map_congr_left (fun v _ => ?_)
    by_cases h : v.id = w.id
    · have hnone : ws.find? (fun x => x.id = w.id) = none := by
        refine List.find?_eq_none.mpr (fun x hx => ?_)
        simp only [decide_eq_true_eq]
        exact fun hEq => hw1 (hEq ▸ List.mem_map_of_mem User.id hx)
      rw [List.find?_cons_of_pos _ (by simp [h])]
      simp [Function.comp, h, hnone]
    · rw [List.find?_cons_of_neg _ (by
        simp only [decide_eq_true_eq]
        exact fun hEq => h hEq.symm)]
      simp [Function.comp, h]

theorem findUsersByIds_map_id (ids : List String) (s : DBState) :
    (findUsersByIds ids s).map User.id = (s.users.map User.id).filter (fun x => x ∈ ids) := by
  unfold findUsersByIds
  rw [List.filter_map]
  rfl

theorem findUsersByIds_length (ids : List String) (s : DBState) :
    (findUsersByIds ids s).length = ((s.users.map User.id).filter (fun x => x ∈ ids)).length := by
  rw [← findUsersByIds_map_id, List.length_map]

theorem length_filter_mem_of_nodup {L ids : List String} (hL : L.Nodup) (hids : ids.Nodup)
    (hall : ∀ i ∈ ids, i ∈ L) : (L.filter (fun x => x ∈ ids)).length = ids.length := by
  have hnd : (L.filter (fun x => x ∈ ids)).Nodup := hL.filter _
  have hset : (L.filter (fun x => x ∈ ids)).toFinset = ids.toFinset := by
    ext x
    simp only [List.mem_toFinset, List.mem_filter, decide_eq_true_eq]
    exact ⟨fun h => h.2, fun h => ⟨hall x h, h⟩⟩
  calc (L.filter (fun x => x ∈ ids)).length
      = (L.filter (fun x => x ∈ ids)).toFinset.card := (List.toFinset_card_of_nodup hnd).symm
    _ = ids.toFinset.card := by rw [hset]
    _ = ids.length := List.toFinset_card_of_nodup hids

theorem length_filter_mem_lt_of_missing {L ids : List String} (hL : L.Nodup) {i0 : String}
    (hi0 : i0 ∈ ids) (hmiss : i0 ∉ L) : (L.filter (fun x => x ∈ ids)).length < ids.length := by
  have hnd : (L.filter (fun x => x ∈ ids)).Nodup := hL.filter _
  have hsub : (L.filter (fun x => x ∈ ids)).toFinset ⊆ ids.toFinset.erase i0 := by
    intro x hx
    simp only [List.mem_toFinset, List.mem_filter, decide_eq_true_eq] at hx
    refine Finset.mem_erase.mpr ⟨fun hEq => hmiss (hEq ▸ hx.1), List.mem_toFinset.mpr hx.2⟩
  have h1 : (L.filter (fun x => x ∈ ids)).length ≤ (ids.toFinset.erase i0).card := by
    rw [← List.toFinset_card_of_nodup hnd]
    exact Finset.card_le_card hsub
  have h2 : (ids.toFinset.erase i0).card = ids.toFinset.card - 1 :=
    Finset.card_erase_of_mem (List.mem_toFinset.mpr hi0)
  have h3 : ids.toFinset.card ≤ ids.length := List.toFinset_card_le ids
  have h4 : 0 < ids.toFinset.card := Finset.card_pos.mpr ⟨i0, List.mem_toFinset.mpr hi0⟩
  omega

theorem length_filter_mem_lt_of_dup {L ids : List String} (hL : L.Nodup)
    (hdup : ¬ ids.Nodup) : (L.filter (fun x => x ∈ ids)).length < ids.length := by
  have hnd : (L.filter (fun x => x ∈ ids)).Nodup := hL.filter _
  have hsub : (L.filter (fun x => x ∈ ids)).toFinset ⊆ ids.toFinset := by
    intro x hx
    simp only [List.mem_toFinset, List.mem_filter, decide_eq_true_eq] at hx ⊢
    exact hx.2
  have h1 : (L.filter (fun x => x ∈ ids)).length ≤ ids.toFinset.card := by
    rw [← List.toFinset_card_of_nodup hnd]
    exact Finset.card_le_card hsub
  have h2 : ids.toFinset.card = ids.dedup.length := List.card_toFinset ids
  have h3 : ids.dedup.length ≤ ids.length := (List.dedup_sublist ids).length_le
  have h4 : ids.dedup.length ≠ ids.length := fun hEq =>
    hdup (by rw [← (List.dedup_sublist ids).eq_of_length hEq]; exact List.nodup_dedup ids)
  omega

theorem not_mem_map_id_of_findUserById_none {i : String} {s : DBState}
    (h : findUserById i s = none) : i ∉ s.users.map User.id := by
  intro hmem
  obtain ⟨u, hu, hid⟩ := List.mem_map.mp hmem
  have hx := List.find?_eq_none.mp h u hu
  simp only [decide_eq_true_eq] at hx
  exact hx hid

/-! ## Unfolding the paths of `createTeamWith` -/

theorem createTeamWith_ok_eq (f : Faults) (dto : CreateTeamDTO) (s : DBState) (u : User)
    (h1 : findTeamByName dto.name s = none)
    (h2 : findUserById dto.super_admin_user_id s = some u)
    (h3 : (findUsersByIds dto.members s).length = dto.members.length)
    (hf1 : f.saveTeamFault = none) (hf2 : f.saveAdminFault = none)
    (hf3 : dto.members.length > 0 → f.saveMembersFault = none) :
    createTeamWith f dto s =
      (saveUsers ((findUsersByIds dto.members s).map (fun m =>
          { m with team := some s.nextTeamId, role := UserRole.EXTERNAL_MEMBER }))
        (saveUser { u with role := UserRole.EXTERNAL_SUPER_ADMIN, team := some s.nextTeamId }
          { s with teams := s.teams ++ [{ id := s.nextTeamId, name := dto.name,
                                          description := dto.description }],
                   nextTeamId := s.nextTeamId + 1 }),
       Except.ok ()) := by
  have hguard : (if (findUsersByIds dto.members s).length > 0
      then f.saveMembersFault else none) = none := by
    rw [h3]
    split
    · exact hf3 ‹_›
    · rfl
  unfold createTeamWith
  rw [h1, h2]
  simp only [members_ite_eq, h3]
  rw [if_neg (fun hc => hc.2 rfl)]
  simp only [runInTransaction, createTeamTx, hf1, hf2, hguard]

/-- C8: for every `updateTeam` invocation (in particular every one that
does not fail), the stored state is left unchanged: the name/description
changes are applied only to the fetched in-memory aggregate, no save is
ever issued, and the method resolves with no payload. -/
theorem updateTeam_does_not_persist (dto : UpdateTeamDTO) (s : DBState) :
    (updateTeam dto s).1 = s := by
  unfold updateTeam
  repeat' split
  all_goals rfl

/-- C2 (code bug evidence): on a fully valid invocation the mutation
succeeds, but `createTeam` resolves with no payload (`Except.ok ()`):
the structured success value `(success: true, message, data: Team)` is
built by the transaction callback (second conjunct) and then discarded,
because the `await this.userRepository.manager.transaction(...)`
statement ignores the transaction's return value and the method never
returns it. -/
theorem createTeam_success_discards_result :
    createTeam ⟨"Alpha", none, "u1", []⟩ ⟨[], [⟨"u1", UserRole.otherRole 0, none⟩], 0⟩
      = (⟨[⟨0, "Alpha", none⟩], [⟨"u1", UserRole.EXTERNAL_SUPER_ADMIN, some 0⟩], 1⟩,
         Except.ok ())
    ∧ (createTeamTx noFaults ⟨"Alpha", none, "u1", []⟩ ⟨"u1", UserRole.otherRole 0, none⟩ []
        ⟨[], [⟨"u1", UserRole.otherRole 0, none⟩], 0⟩).2
      = Except.ok { success := true, message := "团队创建成功",
                    data := some (⟨0, "Alpha", none⟩,
                      [⟨"u1", UserRole.EXTERNAL_SUPER_ADMIN, some 0⟩]) } :=
  ⟨rfl, rfl⟩

/-- C4 (counterexample): with the admin id also listed in
`memberUserIds`, a succeeding `createTeam` leaves the admin's persisted
role as `EXTERNAL_MEMBER`, not `EXTERNAL_SUPER_ADMIN`: the member batch
(which has no admin exclusion) is saved after the admin save and
overwrites the admin's row. -/
theorem createTeam_admin_in_members_ce :
    (createTeam ⟨"Alpha", none, "u1", ["u1"]⟩
        ⟨[], [⟨"u1", UserRole.otherRole 0, none⟩], 0⟩).2 = Except.ok ()
    ∧ findUserById "u1"
        (createTeam ⟨"Alpha", none, "u1", ["u1"]⟩
          ⟨[], [⟨"u1", UserRole.otherRole 0, none⟩], 0⟩).1
        = some ⟨"u1", UserRole.EXTERNAL_MEMBER, some 0⟩
    ∧ UserRole.EXTERNAL_MEMBER ≠ UserRole.EXTERNAL_SUPER_ADMIN :=
  ⟨rfl, rfl, by decide⟩

/-- C7 (counterexample): the name-collision check is skipped for an
empty supplied name.  Target team `⟨1, "A"⟩` exists, `newName = ""` is
supplied, differs from the current name `"A"`, and equals the name of
the other existing team `⟨0, ""⟩` — yet `updateTeam` returns success
instead of failing with `TEAM_NAME_EXISTS`, because the source guards
the check with JS truthiness (`if (dto.name && ...)`) and `""` is
falsy. -/
theorem updateTeam_empty_name_ce :
    updateTeam ⟨1, some "", none⟩ ⟨[⟨0, "", none⟩, ⟨1, "A", none⟩], [], 2⟩
        = (⟨[⟨0, "", none⟩, ⟨1, "A", none⟩], [], 2⟩, Except.ok ())
    ∧ (updateTeam ⟨1, some "", none⟩ ⟨[⟨0, "", none⟩, ⟨1, "A", none⟩], [], 2⟩).2
        ≠ Except.error (createGRPCErrorResponse "TEAM_NAME_EXISTS" "团队名已存在")
    ∧ findTeamByName "" ⟨[⟨0, "", none⟩, ⟨1, "A", none⟩], [], 2⟩ = some ⟨0, "", none⟩
    ∧ (⟨[⟨0, "", none⟩, ⟨1, "A", none⟩], [], 2⟩ : DBState).teams.find?
        (fun t => t.id = (1 : Nat)) = some ⟨1, "A", none⟩
    ∧ ("" : String) ≠ "A" :=
  ⟨rfl, fun h => Except.noConfusion h, rfl, rfl, by decide⟩

/-- C1: for every `createTeam` invocation that passes the three
pre-mutation validations, the mutation phase is all-or-nothing: if any
persistence step inside the transaction fails (here: the first injected
fault actually encountered, with cause message `m`), the operation
raises `CREATE_TEAM_FAILURE` carrying the cause's message and the
resulting state is exactly the initial one — no team row, no role or
team-reference change is visible to subsequent reads.  (A cause with an
empty message is replaced by the source's fallback text
`'创建团队失败'`, hence the `m ≠ ""` hypothesis.) -/
theorem createTeam_failure_atomic (f : Faults) (dto : CreateTeamDTO) (s : DBState) (m : String)
    (h1 : findTeamByName dto.name s = none)
    (h2 : (findUserById dto.super_admin_user_id s).isSome)
    (h3 : (findUsersByIds dto.members s).length = dto.members.length)
    (h4 : effFault f dto = some m)
    (h5 : m ≠ "") :
    createTeamWith f dto s
      = (s, Except.error (createGRPCErrorResponse "CREATE_TEAM_FAILURE" m)) := by
  obtain ⟨u, hu⟩ := Option.isSome_iff_exists.mp h2
  unfold createTeamWith
  rw [h1, hu]
  simp only [members_ite_eq, h3]
  rw [if_neg (fun hc => hc.2 rfl)]
  cases hft : f.saveTeamFault with
  | some m0 =>
    simp only [effFault, hft, Option.some.injEq] at h4
    subst h4
    simp only [runInTransaction, createTeamTx, hft]
    rw [if_neg h5]
  | none =>
    cases hfa : f.saveAdminFault with
    | some m0 =>
      simp only [effFault, hft, hfa, Option.some.injEq] at h4
      subst h4
      simp only [runInTransaction, createTeamTx, hft, hfa]
      rw [if_neg h5]
    | none =>
      simp only [effFault, hft, hfa] at h4
      by_cases hgt : dto.members.length > 0
      · rw [if_pos hgt] at h4
        have hguard : (if (findUsersByIds dto.members s).length > 0
            then f.saveMembersFault else none) = some m := by
          rw [h3, if_pos hgt, h4]
        simp only [runInTransaction, createTeamTx, hft, hfa, hguard]
        rw [if_neg h5]
      · rw [if_neg hgt] at h4
        exact absurd h4 (fun h => Option.noConfusion h)

/-- C1 (witness): a concrete valid invocation on which the admin-save
step fails with cause `"boom"`: the call fails with
`CREATE_TEAM_FAILURE "boom"` and the state is unchanged. -/
theorem createTeam_failure_atomic_witness :
    findTeamByName "Alpha" ⟨[], [⟨"u1", UserRole.otherRole 0, none⟩], 0⟩ = none
    ∧ (findUserById "u1" ⟨[], [⟨"u1", UserRole.otherRole 0, none⟩], 0⟩).isSome
    ∧ effFault ⟨none, some "boom", none⟩ ⟨"Alpha", none, "u1", []⟩ = some "boom"
    ∧ createTeamWith ⟨none, some "boom", none⟩ ⟨"Alpha", none, "u1", []⟩
        ⟨[], [⟨"u1", UserRole.otherRole 0, none⟩], 0⟩
      = (⟨[], [⟨"u1", UserRole.otherRole 0, none⟩], 0⟩,
         Except.error (createGRPCErrorResponse "CREATE_TEAM_FAILURE" "boom")) :=
  ⟨by decide, by decide, by decide,
    createTeam_failure_atomic ⟨none, some "boom", none⟩ ⟨"Alpha", none, "u1", []⟩
      ⟨[], [⟨"u1", UserRole.otherRole 0, none⟩], 0⟩ "boom"
      (by decide) (by decide) (by decide) (by decide) (by decide)⟩

theorem createTeam_already_exists_of_mem (dto : CreateTeamDTO) (s : DBState)
    (h : ∃ t ∈ s.teams, t.name = dto.name) :
    createTeam dto s = (s, Except.error (createGRPCErrorResponse "TEAM_ALREADY_EXISTS"
      ("团队名称「 " ++ dto.name ++ " 」已存在"))) := by
  obtain ⟨t, ht, hn⟩ := h
  have hsome : (findTeamByName dto.name s).isSome :=
    List.find?_isSome.mpr ⟨t, ht, by simp [hn]⟩
  obtain ⟨t', ht'⟩ := Option.isSome_iff_exists.mp hsome
  unfold createTeam createTeamWith
  rw [ht']

theorem createTeam_ok_teams (dto : CreateTeamDTO) (s s' : DBState)
    (h : createTeam dto s = (s', Except.ok ())) :
    s'.teams = s.teams
      ++ [{ id := s.nextTeamId, name := dto.name, description := dto.description }] := by
  unfold createTeam createTeamWith at h
  cases h1 : findTeamByName dto.name s with
  | some t =>
    rw [h1] at h
    exact absurd (congrArg Prod.snd h) (fun hx => Except.noConfusion hx)
  | none =>
    rw [h1] at h
    cases h2 : findUserById dto.super_admin_user_id s with
    | none =>
      rw [h2] at h
      exact absurd (congrArg Prod.snd h) (fun hx => Except.noConfusion hx)
    | some u =>
      rw [h2] at h
      simp only [members_ite_eq] at h
      by_cases hg : dto.members.length > 0
          ∧ (findUsersByIds dto.members s).length ≠ dto.members.length
      · rw [if_pos hg] at h
        exact absurd (congrArg Prod.snd h) (fun hx => Except.noConfusion hx)
      · rw [if_neg hg] at h
        simp only [runInTransaction, createTeamTx, noFaults, ite_self] at h
        rw [Prod.mk.injEq] at h
        obtain ⟨hs', -⟩ := h
        rw [← hs', saveUsers_teams, saveUser_teams]

/-- C5: when some team already has the requested name (exact match),
`createTeam` fails with `TEAM_ALREADY_EXISTS` before performing any
mutation and the state is unchanged (first conjunct); in particular,
after a successful creation, a second call with the identical name
fails with `TEAM_ALREADY_EXISTS` and changes nothing (second
conjunct). -/
theorem createTeam_duplicate_name (dto dto' : CreateTeamDTO) (s : DBState) :
    ((∃ t ∈ s.teams, t.name = dto.name) →
      createTeam dto s = (s, Except.error (createGRPCErrorResponse "TEAM_ALREADY_EXISTS"
        ("团队名称「 " ++ dto.name ++ " 」已存在"))))
    ∧ (∀ s', createTeam dto s = (s', Except.ok ()) → dto'.name = dto.name →
        createTeam dto' s' = (s', Except.error (createGRPCErrorResponse "TEAM_ALREADY_EXISTS"
          ("团队名称「 " ++ dto'.name ++ " 」已存在")))) := by
  constructor
  · exact createTeam_already_exists_of_mem dto s
  · intro s' hok hname
    refine createTeam_already_exists_of_mem dto' s'
      ⟨{ id := s.nextTeamId, name := dto.name, description := dto.description }, ?_, ?_⟩
    · rw [createTeam_ok_teams dto s s' hok]
      exact List.mem_append_right _ (List.mem_singleton.mpr rfl)
    · exact hname.symm

/-- C5 (witness): creating `"Alpha"` twice in sequence from a concrete
state: the first call succeeds, the second fails with
`TEAM_ALREADY_EXISTS` and leaves the state unchanged. -/
theorem createTeam_duplicate_name_witness :
    createTeam ⟨"Alpha", none, "u1", []⟩ ⟨[], [⟨"u1", UserRole.otherRole 0, none⟩], 0⟩
      = (⟨[⟨0, "Alpha", none⟩], [⟨"u1", UserRole.EXTERNAL_SUPER_ADMIN, some 0⟩], 1⟩,
         Except.ok ())
    ∧ createTeam ⟨"Alpha", none, "u1", []⟩
        ⟨[⟨0, "Alpha", none⟩], [⟨"u1", UserRole.EXTERNAL_SUPER_ADMIN, some 0⟩], 1⟩
      = (⟨[⟨0, "Alpha", none⟩], [⟨"u1", UserRole.EXTERNAL_SUPER_ADMIN, some 0⟩], 1⟩,
         Except.error (createGRPCErrorResponse "TEAM_ALREADY_EXISTS"
           "团队名称「 Alpha 」已存在")) :=
  ⟨rfl,
    (createTeam_duplicate_name ⟨"Alpha", none, "u1", []⟩ ⟨"Alpha", none, "u1", []⟩
      ⟨[], [⟨"u1", UserRole.otherRole 0, none⟩], 0⟩).2
      ⟨[⟨0, "Alpha", none⟩], [⟨"u1", UserRole.EXTERNAL_SUPER_ADMIN, some 0⟩], 1⟩ rfl rfl⟩

/-- C6: when the admin id does not resolve to an existing user, or some
id of the (non-empty) member list does not resolve — the fetched count
then differs from the requested count, rejecting the whole batch —
`createTeam` fails with `USER_NOT_FOUND` and the state is unchanged: no
team row is persisted, no user row is changed.  (Per the spec's ordered
precondition list, the name-uniqueness check runs first, hence the
`findTeamByName ... = none` hypothesis.) -/
theorem createTeam_missing_users (dto : CreateTeamDTO) (s : DBState)
    (hnd : (s.users.map User.id).Nodup)
    (h1 : findTeamByName dto.name s = none)
    (h2 : findUserById dto.super_admin_user_id s = none
          ∨ ∃ i ∈ dto.members, findUserById i s = none) :
    ∃ msg, createTeam dto s
      = (s, Except.error (createGRPCErrorResponse "USER_NOT_FOUND" msg)) := by
  unfold createTeam createTeamWith
  rw [h1]
  cases ha : findUserById dto.super_admin_user_id s with
  | none => exact ⟨"用户不存在", rfl⟩
  | some u =>
    rcases h2 with h2 | ⟨i, hi, hnone⟩
    · rw [ha] at h2
      exact absurd h2 (fun h => Option.noConfusion h)
    · have hlen : (findUsersByIds dto.members s).length < dto.members.length := by
        rw [findUsersByIds_length]
        exact length_filter_mem_lt_of_missing hnd hi (not_mem_map_id_of_findUserById_none hnone)
      have hpos : dto.members.length > 0 := List.length_pos_of_mem hi
      refine ⟨"一个或多个团队成员不存在", ?_⟩
      simp only [members_ite_eq]
      rw [if_pos ⟨hpos, Nat.ne_of_lt hlen⟩]

/-- C6 (witness): a concrete invocation whose admin id resolves to no
user fails with `USER_NOT_FOUND` and leaves the state unchanged. -/
theorem createTeam_missing_users_witness :
    (([] : List Team) = [])
    ∧ ∃ msg, createTeam ⟨"Alpha", none, "ghost", []⟩ ⟨[], [], 0⟩
        = (⟨[], [], 0⟩, Except.error (createGRPCErrorResponse "USER_NOT_FOUND" msg)) :=
  ⟨rfl, createTeam_missing_users ⟨"Alpha", none, "ghost", []⟩ ⟨[], [], 0⟩
    (by decide) (by decide) (Or.inl (by decide))⟩

/-- C10: a duplicated id in `memberUserIds` makes `createTeam` fail with
`USER_NOT_FOUND` even when every listed id resolves to an existing user:
the member lookup returns one row per distinct existing id, so the
resolved count is strictly below the raw list length. -/
theorem createTeam_duplicate_member_ids (dto : CreateTeamDTO) (s : DBState) (u : User)
    (hnd : (s.users.map User.id).Nodup)
    (h1 : findTeamByName dto.name s = none)
    (h2 : findUserById dto.super_admin_user_id s = some u)
    (hdup : ¬ dto.members.Nodup)
    (hall : ∀ i ∈ dto.members, ∃ v ∈ s.users, v.id = i) :
    createTeam dto s = (s, Except.error (createGRPCErrorResponse "USER_NOT_FOUND"
      "一个或多个团队成员不存在")) := by
  have hlen : (findUsersByIds dto.members s).length < dto.members.length := by
    rw [findUsersByIds_length]
    exact length_filter_mem_lt_of_dup hnd hdup
  have hpos : dto.members.length > 0 := by
    cases hm : dto.members with
    | nil => exact absurd (hm ▸ List.nodup_nil) hdup
    | cons a t => simp [hm]
  unfold createTeam createTeamWith
  rw [h1, h2]
  simp only [members_ite_eq]
  rw [if_pos ⟨hpos, Nat.ne_of_lt hlen⟩]

/-- C10 (witness): member list `["u2", "u2"]` with `"u2"` existing:
`createTeam` fails with `USER_NOT_FOUND` and the state is unchanged. -/
theorem createTeam_duplicate_member_ids_witness :
    ¬ (["u2", "u2"] : List String).Nodup
    ∧ createTeam ⟨"Alpha", none, "u1", ["u2", "u2"]⟩
        ⟨[], [⟨"u1", UserRole.otherRole 0, none⟩, ⟨"u2", UserRole.otherRole 0, none⟩], 0⟩
      = (⟨[], [⟨"u1", UserRole.otherRole 0, none⟩, ⟨"u2", UserRole.otherRole 0, none⟩], 0⟩,
         Except.error (createGRPCErrorResponse "USER_NOT_FOUND" "一个或多个团队成员不存在")) :=
  ⟨by decide,
    createTeam_duplicate_member_ids ⟨"Alpha", none, "u1", ["u2", "u2"]⟩
      ⟨[], [⟨"u1", UserRole.otherRole 0, none⟩, ⟨"u2", UserRole.otherRole 0, none⟩], 0⟩
      ⟨"u1", UserRole.otherRole 0, none⟩
      (by decide) (by decide) (by decide) (by decide) (by decide)⟩

/-! ## The user rows after a successful creation -/

theorem find?_id_map_of_id_preserved {g : User → User} (hg : ∀ v, (g v).id = v.id)
    (l : List User) (x : String) :
    (l.map g).find? (fun v => v.id = x) = (l.find? (fun v => v.id = x)).map g := by
  rw [List.find?_map]
  have hp : ((fun v : User => decide (v.id = x)) ∘ g) = (fun v : User => decide (v.id = x)) := by
    funext v
    simp [Function.comp, hg v]
  rw [hp]

theorem find?_id_unique' {ws : List User} (hw : (ws.map User.id).Nodup) {w : User} {x : String}
    (hmem : w ∈ ws) (hx : w.id = x) : ws.find? (fun v => v.id = x) = some w := by
  subst hx
  exact find?_id_unique hw hmem

theorem map_id_upd (tid : Nat) (ms : List User) :
    ((ms.map (fun m => { m with team := some tid, role := UserRole.EXTERNAL_MEMBER })).map User.id)
      = ms.map User.id := by
  rw [List.map_map]
  rfl

theorem mem_findUsersByIds {ids : List String} {s : DBState} {v : User} :
    v ∈ findUsersByIds ids s ↔ v ∈ s.users ∧ v.id ∈ ids := by
  simp [findUsersByIds, List.mem_filter]

theorem createTeam_final_users (dto : CreateTeamDTO) (s : DBState) (u : User)
    (hnd : (s.users.map User.id).Nodup)
    (h2 : findUserById dto.super_admin_user_id s = some u) :
    (saveUsers ((findUsersByIds dto.members s).map (fun m =>
        { m with team := some s.nextTeamId, role := UserRole.EXTERNAL_MEMBER }))
      (saveUser { u with role := UserRole.EXTERNAL_SUPER_ADMIN, team := some s.nextTeamId }
        { s with teams := s.teams ++ [{ id := s.nextTeamId, name := dto.name,
                                        description := dto.description }],
                 nextTeamId := s.nextTeamId + 1 })).users
      = s.users.map (fun v =>
          if v.id ∈ dto.members then
            { v with team := some s.nextTeamId, role := UserRole.EXTERNAL_MEMBER }
          else if v.id = dto.super_admin_user_id then
            { v with role := UserRole.EXTERNAL_SUPER_ADMIN, team := some s.nextTeamId }
          else v) := by
  have huid : u.id = dto.super_admin_user_id := by simpa using List.find?_some h2
  have hws : (((findUsersByIds dto.members s).map (fun m =>
      { m with team := some s.nextTeamId, role := UserRole.EXTERNAL_MEMBER })).map User.id).Nodup := by
    rw [map_id_upd, findUsersByIds_map_id]
    exact hnd.filter _
  rw [saveUsers_users _ hws]
  dsimp only [saveUser]
  rw [List.map_map]
  refine List.map_congr_left (fun v hv => ?_)
  simp only [Function.comp]
  by_cases hmem : v.id ∈ dto.members
  · have hvfilter : v ∈ findUsersByIds dto.members s := mem_findUsersByIds.mpr ⟨hv, hmem⟩
    have hwmem : ({ v with team := some s.nextTeamId, role := UserRole.EXTERNAL_MEMBER } : User)
        ∈ (findUsersByIds dto.members s).map (fun m =>
            { m with team := some s.nextTeamId, role := UserRole.EXTERNAL_MEMBER }) :=
      List.mem_map_of_mem _ hvfilter
    rw [if_pos hmem]
    by_cases hva : v.id = u.id
    · simp only [if_pos hva]
      rw [← hva, find?_id_unique' hws hwmem rfl]
      rfl
    · simp only [if_neg hva]
      rw [find?_id_unique' hws hwmem rfl]
      rfl
  · have hnone : ((findUsersByIds dto.members s).map (fun m =>
        { m with team := some s.nextTeamId, role := UserRole.EXTERNAL_MEMBER })).find?
          (fun w => w.id = v.id) = none := by
      refine List.find?_eq_none.mpr (fun w hw => ?_)
      simp only [decide_eq_true_eq]
      intro hwid
      obtain ⟨m, hmf, rfl⟩ := List.mem_map.mp hw
      have hmid : m.id = v.id := hwid
      exact hmem (hmid ▸ (mem_findUsersByIds.mp hmf).2)
    rw [if_neg hmem]
    by_cases hva : v.id = u.id
    · simp only [if_pos hva, if_pos (hva.trans huid)]
      rw [← hva, hnone]
      rfl
    · simp only [if_neg hva,
        if_neg (fun h : v.id = dto.super_admin_user_id => hva (h.trans huid.symm))]
      rw [hnone]
      rfl

theorem findUserById_createTeam_final (dto : CreateTeamDTO) (s : DBState) (u : User) (x : String)
    (hnd : (s.users.map User.id).Nodup)
    (h2 : findUserById dto.super_admin_user_id s = some u) :
    findUserById x
      (saveUsers ((findUsersByIds dto.members s).map (fun m =>
          { m with team := some s.nextTeamId, role := UserRole.EXTERNAL_MEMBER }))
        (saveUser { u with role := UserRole.EXTERNAL_SUPER_ADMIN, team := some s.nextTeamId }
          { s with teams := s.teams ++ [{ id := s.nextTeamId, name := dto.name,
                                          description := dto.description }],
                   nextTeamId := s.nextTeamId + 1 }))
      = (findUserById x s).map (fun v =>
          if v.id ∈ dto.members then
            { v with team := some s.nextTeamId, role := UserRole.EXTERNAL_MEMBER }
          else if v.id = dto.super_admin_user_id then
            { v with role := UserRole.EXTERNAL_SUPER_ADMIN, team := some s.nextTeamId }
          else v) := by
  unfold findUserById
  rw [createTeam_final_users dto s u hnd h2]
  refine find?_id_map_of_id_preserved (fun v => ?_) s.users x
  by_cases h : v.id ∈ dto.members
  · rw [if_pos h]
  · rw [if_neg h]
    by_cases h' : v.id = dto.super_admin_user_id
    · rw [if_pos h']
    · rw [if_neg h']

/-- C4 (amended): `createTeam`'s member batch has no admin exclusion:
when the admin id also appears in `memberUserIds` and the call succeeds,
the member save (which runs after the admin save) overwrites the admin's
row, so the admin's final persisted role is `EXTERNAL_MEMBER` (the team
reference still points at the new team). -/
theorem createTeam_admin_in_members_overwritten (dto : CreateTeamDTO) (s : DBState) (u : User)
    (hnd : (s.users.map User.id).Nodup)
    (h1 : findTeamByName dto.name s = none)
    (h2 : findUserById dto.super_admin_user_id s = some u)
    (h3 : (findUsersByIds dto.members s).length = dto.members.length)
    (h4 : dto.super_admin_user_id ∈ dto.members) :
    ∀ s' res, createTeam dto s = (s', res) →
      res = Except.ok ()
      ∧ findUserById dto.super_admin_user_id s'
          = some { u with team := some s.nextTeamId, role := UserRole.EXTERNAL_MEMBER } := by
  intro s' res heq
  have hok := createTeamWith_ok_eq noFaults dto s u h1 h2 h3 rfl rfl (fun _ => rfl)
  unfold createTeam at heq
  rw [hok, Prod.mk.injEq] at heq
  obtain ⟨hs', hres⟩ := heq
  subst hs'
  refine ⟨hres.symm, ?_⟩
  rw [findUserById_createTeam_final dto s u _ hnd h2, h2]
  have huid : u.id = dto.super_admin_user_id := by simpa using List.find?_some h2
  have hum : u.id ∈ dto.members := by
    rw [huid]
    exact h4
  simp only [Option.map_some', if_pos hum]

/-- C4 (amended, witness): the single user `"u1"` both admin and listed
member: the call succeeds and `"u1"` ends with role `EXTERNAL_MEMBER`
and the new team's id. -/
theorem createTeam_admin_in_members_overwritten_witness :
    (Except.ok () : Except RpcError Unit) = Except.ok ()
    ∧ findUserById "u1" ⟨[⟨0, "Alpha", none⟩], [⟨"u1", UserRole.EXTERNAL_MEMBER, some 0⟩], 1⟩
        = some ⟨"u1", UserRole.EXTERNAL_MEMBER, some 0⟩ :=
  createTeam_admin_in_members_overwritten ⟨"Alpha", none, "u1", ["u1"]⟩
    ⟨[], [⟨"u1", UserRole.otherRole 0, none⟩], 0⟩ ⟨"u1", UserRole.otherRole 0, none⟩
    (by decide) (by decide) (by decide) (by decide) (by decide)
    ⟨[⟨0, "Alpha", none⟩], [⟨"u1", UserRole.EXTERNAL_MEMBER, some 0⟩], 1⟩ (Except.ok ()) rfl

/-- C3: after a successful `createTeam` with name `"Alpha"`, admin `u1`
and member list `[u2, u3]` (`u1` not among the members, all three users
existing): `u1` has role `EXTERNAL_SUPER_ADMIN` and team reference equal
to the new team's id, `u2` and `u3` have role `EXTERNAL_MEMBER` and the
same team reference, and `findOne` on the new team's id returns a member
set whose ids are exactly `{u1.id, u2.id, u3.id}`, order-insensitively. -/
theorem createTeam_alpha_postcondition (s : DBState) (u1 u2 u3 : User) (d : Option String)
    (hWF : WF s)
    (h1 : findTeamByName "Alpha" s = none)
    (hu1 : findUserById u1.id s = some u1)
    (hu2 : findUserById u2.id s = some u2)
    (hu3 : findUserById u3.id s = some u3)
    (h12 : u1.id ≠ u2.id) (h13 : u1.id ≠ u3.id) (h23 : u2.id ≠ u3.id) :
    ∀ s' res, createTeam ⟨"Alpha", d, u1.id, [u2.id, u3.id]⟩ s = (s', res) →
      res = Except.ok ()
      ∧ findUserById u1.id s'
          = some { u1 with role := UserRole.EXTERNAL_SUPER_ADMIN, team := some s.nextTeamId }
      ∧ findUserById u2.id s'
          = some { u2 with team := some s.nextTeamId, role := UserRole.EXTERNAL_MEMBER }
      ∧ findUserById u3.id s'
          = some { u3 with team := some s.nextTeamId, role := UserRole.EXTERNAL_MEMBER }
      ∧ ∃ t mems, findOne s.nextTeamId s' = (s', Except.ok (t, mems))
          ∧ t.name = "Alpha"
          ∧ (∀ x, x ∈ mems.map User.id ↔ x ∈ [u1.id, u2.id, u3.id]) := by
  obtain ⟨hnd, hndT, hTlt, hUlt⟩ := hWF
  intro s' res heq
  have hu1m : u1 ∈ s.users := List.mem_of_find?_eq_some hu1
  have hu2m : u2 ∈ s.users := List.mem_of_find?_eq_some hu2
  have hu3m : u3 ∈ s.users := List.mem_of_find?_eq_some hu3
  have hnotm1 : u1.id ∉ ([u2.id, u3.id] : List String) := by
    intro h
    rcases List.mem_cons.mp h with h | h
    · exact h12 h
    · rcases List.mem_cons.mp h with h | h
      · exact h13 h
      · cases h
  have hm2 : u2.id ∈ ([u2.id, u3.id] : List String) := List.mem_cons_self _ _
  have hm3 : u3.id ∈ ([u2.id, u3.id] : List String) :=
    List.mem_cons.mpr (Or.inr (List.mem_cons_self _ _))
  have hids : ([u2.id, u3.id] : List String).Nodup := by simp [h23]
  have hall2 : ∀ i ∈ ([u2.id, u3.id] : List String), i ∈ s.users.map User.id := by
    intro i hi
    rcases List.mem_cons.mp hi with rfl | hi
    · exact List.mem_map.mpr ⟨u2, hu2m, rfl⟩
    · rcases List.mem_cons.mp hi with rfl | hi
      · exact List.mem_map.mpr ⟨u3, hu3m, rfl⟩
      · cases hi
  have h3 : (findUsersByIds [u2.id, u3.id] s).length
      = ([u2.id, u3.id] : List String).length := by
    rw [findUsersByIds_length]
    exact length_filter_mem_of_nodup hnd hids hall2
  have hok := createTeamWith_ok_eq noFaults ⟨"Alpha", d, u1.id, [u2.id, u3.id]⟩ s u1
    h1 hu1 h3 rfl rfl (fun _ => rfl)
  unfold createTeam at heq
  rw [hok, Prod.mk.injEq] at heq
  obtain ⟨hs', hres⟩ := heq
  subst hs'
  have hteams : (saveUsers ((findUsersByIds
      (⟨"Alpha", d, u1.id, [u2.id, u3.id]⟩ : CreateTeamDTO).members s).map (fun m =>
        { m with team := some s.nextTeamId, role := UserRole.EXTERNAL_MEMBER }))
      (saveUser { u1 with role := UserRole.EXTERNAL_SUPER_ADMIN, team := some s.nextTeamId }
        { s with teams := s.teams ++ [{ id := s.nextTeamId, name := "Alpha",
                                        description := d }],
                 nextTeamId := s.nextTeamId + 1 })).teams
      = s.teams ++ [{ id := s.nextTeamId, name := "Alpha", description := d }] := by
    rw [saveUsers_teams, saveUser_teams]
  refine ⟨hres.symm, ?_, ?_, ?_, ?_⟩
  · rw [findUserById_createTeam_final ⟨"Alpha", d, u1.id, [u2.id, u3.id]⟩ s u1 u1.id hnd hu1,
      hu1]
    simp only [Option.map_some']
    simp [h12, h13]
  · rw [findUserById_createTeam_final ⟨"Alpha", d, u1.id, [u2.id, u3.id]⟩ s u1 u2.id hnd hu1,
      hu2]
    simp only [Option.map_some']
    simp [hm2]
  · rw [findUserById_createTeam_final ⟨"Alpha", d, u1.id, [u2.id, u3.id]⟩ s u1 u3.id hnd hu1,
      hu3]
    simp only [Option.map_some']
    simp [hm3]
  · have hfind : (saveUsers ((findUsersByIds
        (⟨"Alpha", d, u1.id, [u2.id, u3.id]⟩ : CreateTeamDTO).members s).map (fun m =>
          { m with team := some s.nextTeamId, role := UserRole.EXTERNAL_MEMBER }))
        (saveUser { u1 with role := UserRole.EXTERNAL_SUPER_ADMIN, team := some s.nextTeamId }
          { s with teams := s.teams ++ [{ id := s.nextTeamId, name := "Alpha",
                                          description := d }],
                   nextTeamId := s.nextTeamId + 1 })).teams.find?
          (fun t => t.id = s.nextTeamId)
        = some { id := s.nextTeamId, name := "Alpha", description := d } := by
      rw [hteams, List.find?_append]
      have hnoneT : s.teams.find? (fun t => t.id = s.nextTeamId) = none := by
        refine List.find?_eq_none.mpr (fun t ht => ?_)
        simp only [decide_eq_true_eq]
        exact fun hEq => absurd (hEq ▸ hTlt t ht) (lt_irrefl _)
      rw [hnoneT, Option.none_or]
      exact List.find?_cons_of_pos _ (by simp)
    refine ⟨{ id := s.nextTeamId, name := "Alpha", description := d },
      teamMembers s.nextTeamId (saveUsers ((findUsersByIds
        (⟨"Alpha", d, u1.id, [u2.id, u3.id]⟩ : CreateTeamDTO).members s).map (fun m =>
          { m with team := some s.nextTeamId, role := UserRole.EXTERNAL_MEMBER }))
        (saveUser { u1 with role := UserRole.EXTERNAL_SUPER_ADMIN, team := some s.nextTeamId }
          { s with teams := s.teams ++ [{ id := s.nextTeamId, name := "Alpha",
                                          description := d }],
                   nextTeamId := s.nextTeamId + 1 })), ?_, rfl, ?_⟩
    · unfold findOne findTeamWithMembers
      rw [hfind]
      rfl
    · intro x
      unfold teamMembers
      rw [createTeam_final_users ⟨"Alpha", d, u1.id, [u2.id, u3.id]⟩ s u1 hnd hu1]
      dsimp only
      constructor
      · intro hx
        obtain ⟨w, hwmem, hwid⟩ := List.mem_map.mp hx
        obtain ⟨hwmem', hq⟩ := List.mem_filter.mp hwmem
        obtain ⟨v, hvmem, rfl⟩ := List.mem_map.mp hwmem'
        simp only [decide_eq_true_eq] at hq
        by_cases hm : v.id ∈ ([u2.id, u3.id] : List String)
        · simp only [if_pos hm] at hwid
          exact List.mem_cons.mpr (Or.inr (hwid ▸ hm))
        · by_cases ha : v.id = u1.id
          · simp only [if_neg hm, if_pos ha] at hwid
            rw [← hwid, ha]
            exact List.mem_cons_self _ _
          · simp only [if_neg hm, if_neg ha] at hq
            exact absurd (hUlt v hvmem _ hq) (lt_irrefl _)
      · intro hx
        rcases List.mem_cons.mp hx with rfl | hx
        · refine List.mem_map.mpr ⟨_, List.mem_filter.mpr ⟨List.mem_map_of_mem _ hu1m, ?_⟩, ?_⟩
          · simp [h12, h13]
          · simp [h12, h13]
        · rcases List.mem_cons.mp hx with rfl | hx
          · refine List.mem_map.mpr ⟨_, List.mem_filter.mpr ⟨List.mem_map_of_mem _ hu2m, ?_⟩, ?_⟩
            · simp [hm2]
            · simp [hm2]
          · rcases List.mem_cons.mp hx with rfl | hx
            · refine List.mem_map.mpr
                ⟨_, List.mem_filter.mpr ⟨List.mem_map_of_mem _ hu3m, ?_⟩, ?_⟩
              · simp [hm3]
              · simp [hm3]
            · cases hx

/-- C3 (witness): the concrete scenario on a store holding exactly
`u1, u2, u3` with no teams: all postconditions instantiated at the
resulting state. -/
theorem createTeam_alpha_postcondition_witness :
    (Except.ok () : Except RpcError Unit) = Except.ok ()
    ∧ findUserById "u1"
        ⟨[⟨0, "Alpha", none⟩],
         [⟨"u1", UserRole.EXTERNAL_SUPER_ADMIN, some 0⟩,
          ⟨"u2", UserRole.EXTERNAL_MEMBER, some 0⟩,
          ⟨"u3", UserRole.EXTERNAL_MEMBER, some 0⟩], 1⟩
        = some ⟨"u1", UserRole.EXTERNAL_SUPER_ADMIN, some 0⟩
    ∧ findUserById "u2"
        ⟨[⟨0, "Alpha", none⟩],
         [⟨"u1", UserRole.EXTERNAL_SUPER_ADMIN, some 0⟩,
          ⟨"u2", UserRole.EXTERNAL_MEMBER, some 0⟩,
          ⟨"u3", UserRole.EXTERNAL_MEMBER, some 0⟩], 1⟩
        = some ⟨"u2", UserRole.EXTERNAL_MEMBER, some 0⟩
    ∧ findUserById "u3"
        ⟨[⟨0, "Alpha", none⟩],
         [⟨"u1", UserRole.EXTERNAL_SUPER_ADMIN, some 0⟩,
          ⟨"u2", UserRole.EXTERNAL_MEMBER, some 0⟩,
          ⟨"u3", UserRole.EXTERNAL_MEMBER, some 0⟩], 1⟩
        = some ⟨"u3", UserRole.EXTERNAL_MEMBER, some 0⟩
    ∧ ∃ t mems, findOne 0
        ⟨[⟨0, "Alpha", none⟩],
         [⟨"u1", UserRole.EXTERNAL_SUPER_ADMIN, some 0⟩,
          ⟨"u2", UserRole.EXTERNAL_MEMBER, some 0⟩,
          ⟨"u3", UserRole.EXTERNAL_MEMBER, some 0⟩], 1⟩
        = (⟨[⟨0, "Alpha", none⟩],
            [⟨"u1", UserRole.EXTERNAL_SUPER_ADMIN, some 0⟩,
             ⟨"u2", UserRole.EXTERNAL_MEMBER, some 0⟩,
             ⟨"u3", UserRole.EXTERNAL_MEMBER, some 0⟩], 1⟩, Except.ok (t, mems))
        ∧ t.name = "Alpha"
        ∧ (∀ x, x ∈ mems.map User.id ↔ x ∈ ["u1", "u2", "u3"]) :=
  createTeam_alpha_postcondition
    ⟨[], [⟨"u1", UserRole.otherRole 0, none⟩, ⟨"u2", UserRole.otherRole 0, none⟩,
          ⟨"u3", UserRole.otherRole 0, none⟩], 0⟩
    ⟨"u1", UserRole.otherRole 0, none⟩ ⟨"u2", UserRole.otherRole 0, none⟩
    ⟨"u3", UserRole.otherRole 0, none⟩ none
    ⟨by decide, by decide, by decide, by simp⟩
    (by decide) (by decide) (by decide) (by decide)
    (by decide) (by decide) (by decide)
    ⟨[⟨0, "Alpha", none⟩],
     [⟨"u1", UserRole.EXTERNAL_SUPER_ADMIN, some 0⟩,
      ⟨"u2", UserRole.EXTERNAL_MEMBER, some 0⟩,
      ⟨"u3", UserRole.EXTERNAL_MEMBER, some 0⟩], 1⟩ (Except.ok ()) rfl

/-- C9: `deleteTeam` on an existing team detaches every current member
(each member row is saved with its team reference cleared to `null`, in
sequence) and then removes the team row, so the final state has the
team row gone and every former member's team reference `none`, and a
subsequent `findOne` on the id fails with `TEAM_NOT_FOUND`; on a
non-existent id, `deleteTeam` fails with the `TEAM_NOT_FOUND` error that
`findOne` raises and changes nothing. -/
theorem deleteTeam_detaches_and_removes (i : Nat) (s : DBState) (hWF : WF s) :
    (∀ t, s.teams.find? (fun x => x.id = i) = some t →
      deleteTeam i s =
        ({ teams := s.teams.filter (fun x => x.id ≠ t.id),
           users := s.users.map (fun v =>
             if v.team = some i then { v with team := none } else v),
           nextTeamId := s.nextTeamId }, Except.ok ())
      ∧ (findOne i ({ teams := s.teams.filter (fun x => x.id ≠ t.id),
                      users := s.users.map (fun v =>
                        if v.team = some i then { v with team := none } else v),
                      nextTeamId := s.nextTeamId } : DBState)).2
          = Except.error (createGRPCErrorResponse "TEAM_NOT_FOUND" "团队未找到"))
    ∧ (s.teams.find? (fun x => x.id = i) = none →
        deleteTeam i s = (s, Except.error (createGRPCErrorResponse "TEAM_NOT_FOUND" "团队未找到"))) := by
  obtain ⟨hnd, hndT, hTlt, hUlt⟩ := hWF
  constructor
  · intro t ht
    have htid : t.id = i := by simpa using List.find?_some ht
    have hfold : (teamMembers t.id s).foldl
        (fun st m => saveUser { m with team := none } st) s
        = saveUsers ((teamMembers t.id s).map (fun m => { m with team := none })) s :=
      (List.foldl_map (fun m : User => { m with team := none })
        (fun st u => saveUser u st) (teamMembers t.id s) s).symm
    have hwsnd : (((teamMembers t.id s).map (fun m => { m with team := none })).map
        User.id).Nodup := by
      rw [List.map_map]
      have hsub : List.Sublist ((teamMembers t.id s).map User.id) (s.users.map User.id) :=
        (List.filter_sublist _).map User.id
      exact (hnd.sublist hsub)
    constructor
    · unfold deleteTeam findTeamWithMembers
      rw [ht]
      simp only [Option.map_some']
      unfold removeTeam
      rw [Prod.mk.injEq]
      refine ⟨?_, rfl⟩
      rw [DBState.mk.injEq]
      refine ⟨?_, ?_, ?_⟩
      · rw [hfold, saveUsers_teams]
      · rw [hfold, saveUsers_users _ hwsnd]
        refine List.map_congr_left (fun v hv => ?_)
        by_cases hvt : v.team = some i
        · have hvm : v ∈ teamMembers t.id s :=
            List.mem_filter.mpr ⟨hv, by simp [htid, hvt]⟩
          have hclr : ({ v with team := none } : User)
              ∈ (teamMembers t.id s).map (fun m => { m with team := none }) :=
            List.mem_map_of_mem _ hvm
          rw [find?_id_unique' hwsnd hclr rfl]
          simp only [if_pos hvt]
          rfl
        · have hnone : ((teamMembers t.id s).map (fun m => { m with team := none })).find?
              (fun w => w.id = v.id) = none := by
            refine List.find?_eq_none.mpr (fun w hw => ?_)
            simp only [decide_eq_true_eq]
            intro hwid
            obtain ⟨m, hmm, rfl⟩ := List.mem_map.mp hw
            have hmid : m.id = v.id := hwid
            obtain ⟨hm1, hm2⟩ := List.mem_filter.mp hmm
            simp only [decide_eq_true_eq] at hm2
            have hmv : m = v := eq_of_mem_of_id_eq hnd hm1 hv hmid
            exact hvt (by rw [← hmv, hm2, htid])
          rw [hnone]
          simp only [if_neg hvt]
          rfl
      · rw [hfold, saveUsers_nextTeamId]
    · unfold findOne findTeamWithMembers
      have hfnone : ((s.teams.filter (fun x => x.id ≠ t.id)).find?
          (fun x => x.id = i)) = none := by
        refine List.find?_eq_none.mpr (fun x hx => ?_)
        have hx2 := (List.mem_filter.mp hx).2
        simp only [decide_eq_true_eq] at hx2 ⊢
        intro hEq
        exact hx2 (by rw [hEq, htid])
      dsimp only
      rw [hfnone]
      rfl
  · intro hnone
    unfold deleteTeam findTeamWithMembers
    rw [hnone]
    rfl

/-- C9 (witness): deleting team `5` with members `u2, u3` (and bystander
`u4` on another team): both members end detached, `u4` and its team
reference are untouched, the team row is gone, and `findOne 5` then
fails with `TEAM_NOT_FOUND`. -/
theorem deleteTeam_detaches_and_removes_witness :
    deleteTeam 5 ⟨[⟨5, "T", none⟩],
        [⟨"u2", UserRole.EXTERNAL_MEMBER, some 5⟩, ⟨"u3", UserRole.EXTERNAL_MEMBER, some 5⟩,
         ⟨"u4", UserRole.otherRole 0, some 4⟩], 6⟩
      = (⟨[], [⟨"u2", UserRole.EXTERNAL_MEMBER, none⟩, ⟨"u3", UserRole.EXTERNAL_MEMBER, none⟩,
              ⟨"u4", UserRole.otherRole 0, some 4⟩], 6⟩, Except.ok ())
    ∧ (findOne 5 ⟨[], [⟨"u2", UserRole.EXTERNAL_MEMBER, none⟩,
          ⟨"u3", UserRole.EXTERNAL_MEMBER, none⟩,
          ⟨"u4", UserRole.otherRole 0, some 4⟩], 6⟩).2
        = Except.error (createGRPCErrorResponse "TEAM_NOT_FOUND" "团队未找到") :=
  (deleteTeam_detaches_and_removes 5
    ⟨[⟨5, "T", none⟩],
     [⟨"u2", UserRole.EXTERNAL_MEMBER, some 5⟩, ⟨"u3", UserRole.EXTERNAL_MEMBER, some 5⟩,
      ⟨"u4", UserRole.otherRole 0, some 4⟩], 6⟩
    ⟨by decide, by decide, by decide, by simp⟩).1 ⟨5, "T", none⟩ (by decide)

/-- C7 (amended): `updateTeam` fails with `TEAM_NOT_FOUND` when no team
has the given id; and when a *non-empty* `newName` is supplied that
differs from the target's current name and equals another existing
team's name, it fails with `TEAM_NAME_EXISTS` and leaves every stored
team (in particular the target's name) unchanged.  (The non-emptiness
condition is forced by the source's JS-truthiness guard
`if (dto.name && ...)`; see the counterexample for `newName = ""`.) -/
theorem updateTeam_not_found_and_name_exists (dto : UpdateTeamDTO) (s : DBState) :
    (s.teams.find? (fun t => t.id = dto.id) = none →
      updateTeam dto s = (s, Except.error (createGRPCErrorResponse "TEAM_NOT_FOUND" "团队未找到")))
    ∧ (∀ team n, s.teams.find? (fun t => t.id = dto.id) = some team →
        dto.name = some n → n ≠ "" → n ≠ team.name →
        (∃ t' ∈ s.teams, t'.name = n) →
        updateTeam dto s
          = (s, Except.error (createGRPCErrorResponse "TEAM_NAME_EXISTS" "团队名已存在"))) := by
  constructor
  · intro h
    unfold updateTeam
    rw [h]
  · intro team n hteam hname hne hneq hex
    unfold updateTeam
    rw [hteam, hname]
    dsimp only
    rw [if_pos ⟨hne, hneq⟩]
    have hsome : (findTeamByName n s).isSome := by
      obtain ⟨t', ht', hn'⟩ := hex
      exact List.find?_isSome.mpr ⟨t', ht', by simp [hn']⟩
    obtain ⟨t', ht'⟩ := Option.isSome_iff_exists.mp hsome
    rw [ht']

/-- C7 (amended, witness): renaming team `1` (current name `"A"`) to the
non-empty name `"B"` held by team `0` fails with `TEAM_NAME_EXISTS` and
leaves the state unchanged. -/
theorem updateTeam_not_found_and_name_exists_witness :
    updateTeam ⟨1, some "B", none⟩ ⟨[⟨0, "B", none⟩, ⟨1, "A", none⟩], [], 2⟩
      = (⟨[⟨0, "B", none⟩, ⟨1, "A", none⟩], [], 2⟩,
         Except.error (createGRPCErrorResponse "TEAM_NAME_EXISTS" "团队名已存在")) :=
  (updateTeam_not_found_and_name_exists ⟨1, some "B", none⟩
    ⟨[⟨0, "B", none⟩, ⟨1, "A", none⟩], [], 2⟩).2 ⟨1, "A", none⟩ "B"
    (by decide) rfl (by decide) (by decide) (by decide)
